import Mathlib

/-
Shallow embedding of the pen-tool library core (src/core/types.ts,
src/core/path.ts, src/core/handles.ts).  Point coordinates are modelled
polymorphically: exact real numbers for the geometry claims, and JNum
(Option of a rational, where none models the JavaScript NaN/undefined
values, which propagate through arithmetic without ever throwing) for
the SVG import pipeline.  Styling scalars (stroke width, corner radius)
are modelled as rationals; they never interact with geometry.
-/

namespace PenToolSpec

/-- JavaScript number as used by the SVG import pipeline: none models
NaN or undefined (both propagate through arithmetic, never throw). -/
def JNum : Type := Option ℚ

instance : DecidableEq JNum := inferInstanceAs (DecidableEq (Option ℚ))

/-- Binary arithmetic on JavaScript numbers: NaN/undefined propagates. -/
def JNum.bin (f : ℚ → ℚ → ℚ) : JNum → JNum → JNum
  | some a, some b => some (f a b)
  | _, _ => none

instance : Add JNum := ⟨JNum.bin (fun a b => a + b)⟩

instance : Sub JNum := ⟨JNum.bin (fun a b => a - b)⟩

instance : Mul JNum := ⟨JNum.bin (fun a b => a * b)⟩

instance (n : Nat) : OfNat JNum n := ⟨some (OfNat.ofNat n)⟩

/-- Basic 2D point with x, y coordinates (types.ts, interface Point). -/
@[ext]
structure Point (α : Type) where
  x : α
  y : α
deriving DecidableEq

/-- Handle mirroring modes for Bezier control points (types.ts). -/
inductive HandleMirrorMode : Type
  | Mirrored
  | AngleLocked
  | Independent
deriving DecidableEq

/-- Type of path segment (types.ts). -/
inductive SegmentType : Type
  | Line
  | CubicBezier
  | QuadraticBezier
deriving DecidableEq

/-- Bezier handle (control point) for curved segments (types.ts).
position is stored relative to the owning anchor point. -/
structure BezierHandle (α : Type) where
  position : Point α
  visible : Bool
deriving DecidableEq

/-- Anchor point on a vector path (types.ts).  handleIn/handleOut are
nullable in the source; corner radius is a styling scalar. -/
structure AnchorPoint (α : Type) where
  id : String
  position : Point α
  handleIn : Option (BezierHandle α)
  handleOut : Option (BezierHandle α)
  mirrorMode : HandleMirrorMode
  cornerRadius : ℚ
  selected : Bool
deriving DecidableEq

/-- A segment of a path between two anchor points (types.ts).  The
control points are optional in the source (present for cubic Beziers). -/
structure PathSegment (α : Type) where
  type : SegmentType
  startPoint : AnchorPoint α
  endPoint : AnchorPoint α
  controlPoint1 : Option (Point α)
  controlPoint2 : Option (Point α)
deriving DecidableEq

/-- Cap style for open path endpoints (types.ts). -/
inductive StrokeCapStyle : Type
  | None
  | Round
  | Square
  | LineArrow
  | TriangleArrow
  | CircleArrow
deriving DecidableEq

/-- A complete vector path (types.ts). -/
structure VectorPath (α : Type) where
  id : String
  anchorPoints : List (AnchorPoint α)
  closed : Bool
  fill : Option String
  stroke : String
  strokeWidth : ℚ
  strokeCapStart : StrokeCapStyle
  strokeCapEnd : StrokeCapStyle
  selected : Bool
deriving DecidableEq

namespace PointUtils

/-- PointUtils.add (path.ts). -/
def add [Add α] (p1 p2 : Point α) : Point α :=
  { x := p1.x + p2.x, y := p1.y + p2.y }

/-- PointUtils.subtract (path.ts). -/
def subtract [Sub α] (p1 p2 : Point α) : Point α :=
  { x := p1.x - p2.x, y := p1.y - p2.y }

/-- PointUtils.scale (path.ts). -/
def scale [Mul α] (p : Point α) (factor : α) : Point α :=
  { x := p.x * factor, y := p.y * factor }

/-- PointUtils.distance (path.ts): Euclidean distance. -/
noncomputable def distance (p1 p2 : Point ℝ) : ℝ :=
  Real.sqrt ((p2.x - p1.x) * (p2.x - p1.x) + (p2.y - p1.y) * (p2.y - p1.y))

end PointUtils

namespace PathManager

/-- PathManager.generateId (path.ts): mints the id for counter value n. -/
def generateId (n : Nat) : String :=
  "point-" ++ toString n

/-- PathManager.createPath (path.ts): new empty path.  The mutable map
of paths held by the manager is not needed by any claim; the id counter
is threaded explicitly. -/
def createPath (α : Type) (counter : Nat) : VectorPath α × Nat :=
  ({ id := generateId counter
     anchorPoints := []
     closed := false
     fill := none
     stroke := "#000000"
     strokeWidth := 2
     strokeCapStart := StrokeCapStyle.Round
     strokeCapEnd := StrokeCapStyle.Round
     selected := false }, counter + 1)

/-- PathManager.addAnchorPoint (path.ts): appends an anchor point,
returning the updated path, the new anchor point and the new counter. -/
def addAnchorPoint (path : VectorPath α) (counter : Nat) (position : Point α)
    (handleIn handleOut : Option (Point α)) : VectorPath α × AnchorPoint α × Nat :=
  let anchorPoint : AnchorPoint α :=
    { id := generateId counter
      position := position
      handleIn := handleIn.map (fun p => { position := p, visible := true })
      handleOut := handleOut.map (fun p => { position := p, visible := true })
      mirrorMode := HandleMirrorMode.Mirrored
      cornerRadius := 0
      selected := false }
  ({ path with anchorPoints := path.anchorPoints ++ [anchorPoint] }, anchorPoint, counter + 1)

/-- JavaScript Array.prototype.findIndex over the anchor list. -/
def findIndexAux (f : AnchorPoint α → Bool) : List (AnchorPoint α) → Nat → Option Nat
  | [], _ => none
  | p :: rest, i => if f p then some i else findIndexAux f rest (i + 1)

/-- PathManager.removeAnchorPoint (path.ts): findIndex + splice; returns
false (path untouched) when the id is not present. -/
def removeAnchorPoint (path : VectorPath α) (pointId : String) : VectorPath α × Bool :=
  match findIndexAux (fun p => p.id == pointId) path.anchorPoints 0 with
  | some index => ({ path with anchorPoints := path.anchorPoints.eraseIdx index }, true)
  | none => (path, false)

/-- JavaScript Array.prototype.find followed by a position assignment:
only the first anchor with a matching id is updated. -/
def setPositionFirst (pointId : String) (newPosition : Point α) :
    List (AnchorPoint α) → List (AnchorPoint α)
  | [] => []
  | p :: rest =>
      if p.id == pointId then { p with position := newPosition } :: rest
      else p :: setPositionFirst pointId newPosition rest

/-- PathManager.moveAnchorPoint (path.ts): returns false (path untouched)
when the id is not present. -/
def moveAnchorPoint (path : VectorPath α) (pointId : String) (newPosition : Point α) :
    VectorPath α × Bool :=
  if path.anchorPoints.any (fun p => p.id == pointId) then
    ({ path with anchorPoints := setPositionFirst pointId newPosition path.anchorPoints }, true)
  else (path, false)

/-- PathManager.closePath (path.ts). -/
def closePath (path : VectorPath α) : VectorPath α :=
  { path with closed := true }

/-- PathManager.openPath (path.ts). -/
def openPath (path : VectorPath α) : VectorPath α :=
  { path with closed := false }

/-- The loop bound of getSegments (path.ts, local const loopEnd). -/
def lastSegmentIndex (path : VectorPath α) : Nat :=
  if path.closed then path.anchorPoints.length else path.anchorPoints.length - 1

/-- PathManager.getSegments (path.ts): derives the segment list.  The
for-push loop is modelled as a map over the index range; list indexing
uses the first anchor as an (unreachable) fallback since every index
taken is in range. -/
def getSegments [Add α] (path : VectorPath α) : List (PathSegment α) :=
  let points := path.anchorPoints
  if points.length < 2 then []
  else
    match points with
    | [] => []
    | p0 :: _ =>
      (List.range (lastSegmentIndex path)).map (fun i =>
        let startPoint := points.getD i p0
        let endPoint := points.getD ((i + 1) % points.length) p0
        let hasOutHandle := match startPoint.handleOut with
          | some h => h.visible
          | none => false
        let hasInHandle := match endPoint.handleIn with
          | some h => h.visible
          | none => false
        if hasOutHandle || hasInHandle then
          let cp1 := match startPoint.handleOut with
            | some h => if h.visible then PointUtils.add startPoint.position h.position
                        else startPoint.position
            | none => startPoint.position
          let cp2 := match endPoint.handleIn with
            | some h => if h.visible then PointUtils.add endPoint.position h.position
                        else endPoint.position
            | none => endPoint.position
          { type := SegmentType.CubicBezier
            startPoint := startPoint
            endPoint := endPoint
            controlPoint1 := some cp1
            controlPoint2 := some cp2 }
        else
          { type := SegmentType.Line
            startPoint := startPoint
            endPoint := endPoint
            controlPoint1 := none
            controlPoint2 := none })

/-- PathManager.toSVGPath (path.ts): serialize a path to SVG path data.
The JavaScript number-to-string conversion is passed in as f.  A
quadratic segment type pushes no part in the source (if / else-if with
no final else), hence the filterMap. -/
def toSVGPath [Add α] (f : α → String) (path : VectorPath α) : String :=
  match getSegments path with
  | [] => ""
  | s0 :: rest =>
      let firstPoint := s0.startPoint.position
      let segmentParts := (s0 :: rest).filterMap (fun segment =>
        match segment.type with
        | SegmentType.Line =>
            some ("L " ++ f segment.endPoint.position.x ++ " " ++ f segment.endPoint.position.y)
        | SegmentType.CubicBezier =>
            let cp1 := segment.controlPoint1.getD segment.endPoint.position
            let cp2 := segment.controlPoint2.getD segment.endPoint.position
            some ("C " ++ f cp1.x ++ " " ++ f cp1.y ++ ", " ++ f cp2.x ++ " " ++ f cp2.y
              ++ ", " ++ f segment.endPoint.position.x ++ " " ++ f segment.endPoint.position.y)
        | SegmentType.QuadraticBezier => none)
      let parts := ("M " ++ f firstPoint.x ++ " " ++ f firstPoint.y) :: segmentParts
      let parts := if path.closed then parts ++ ["Z"] else parts
      String.intercalate " " parts

/-- The loop body accumulator of PathManager.findClosestPointOnPath
(path.ts): closest-so-far is an optional (anchor, distance) pair. -/
noncomputable def findClosestLoop (position : Point ℝ) (threshold : ℝ) :
    List (AnchorPoint ℝ) → Option (AnchorPoint ℝ × ℝ) → Option (AnchorPoint ℝ × ℝ)
  | [], closest => closest
  | point :: rest, closest =>
      let d := PointUtils.distance position point.position
      let closest' :=
        if d ≤ threshold then
          match closest with
          | none => some (point, d)
          | some c => if d < c.2 then some (point, d) else some c
        else closest
      findClosestLoop position threshold rest closest'

/-- PathManager.findClosestPointOnPath (path.ts). -/
noncomputable def findClosestPointOnPath (path : VectorPath ℝ) (position : Point ℝ)
    (threshold : ℝ) : Option (AnchorPoint ℝ × ℝ) :=
  findClosestLoop position threshold path.anchorPoints none

/-- PathManager.lerp (path.ts): linear interpolation between points. -/
def lerp [CommRing α] (p0 p1 : Point α) (t : α) : Point α :=
  { x := p0.x + t * (p1.x - p0.x)
    y := p0.y + t * (p1.y - p0.y) }

/-- PathManager.cubicBezierPoint (path.ts). -/
def cubicBezierPoint [CommRing α] (p0 cp1 cp2 p1 : Point α) (t : α) : Point α :=
  let t2 := t * t
  let t3 := t2 * t
  let mt := 1 - t
  let mt2 := mt * mt
  let mt3 := mt2 * mt
  { x := mt3 * p0.x + 3 * mt2 * t * cp1.x + 3 * mt * t2 * cp2.x + t3 * p1.x
    y := mt3 * p0.y + 3 * mt2 * t * cp1.y + 3 * mt * t2 * cp2.y + t3 * p1.y }

/-- One of the two cubic curves returned by subdivideCubicBezier. -/
structure CubicCurve (α : Type) where
  p0 : Point α
  cp1 : Point α
  cp2 : Point α
  p3 : Point α
deriving DecidableEq

/-- Return value of subdivideCubicBezier (path.ts). -/
structure SubdivisionResult (α : Type) where
  curve1 : CubicCurve α
  curve2 : CubicCurve α
deriving DecidableEq

/-- PathManager.subdivideCubicBezier (path.ts): De Casteljau subdivision. -/
def subdivideCubicBezier [CommRing α] (p0 cp1 cp2 p3 : Point α) (t : α) :
    SubdivisionResult α :=
  let p01 := lerp p0 cp1 t
  let p12 := lerp cp1 cp2 t
  let p23 := lerp cp2 p3 t
  let p012 := lerp p01 p12 t
  let p123 := lerp p12 p23 t
  let p0123 := lerp p012 p123 t
  { curve1 := { p0 := p0, cp1 := p01, cp2 := p012, p3 := p0123 }
    curve2 := { p0 := p0123, cp1 := p123, cp2 := p23, p3 := p3 } }

end PathManager

/-- Euclidean length of a relative handle vector, as computed inline in
HandleManager.mirrorHandle (handles.ts, sourceLength / targetLength). -/
noncomputable def handleLen (p : Point ℝ) : ℝ :=
  Real.sqrt (p.x ^ 2 + p.y ^ 2)

namespace HandleManager

/-- HandleManager.mirrorHandle (handles.ts).  In the Mirrored case the
source either creates the target handle or overwrites its position and
visibility; both produce the same handle value, so the two branches are
collapsed.  In the AngleLocked existing-visible case only the position
is assigned (visibility is left as it was). -/
noncomputable def mirrorHandle (anchorPoint : AnchorPoint ℝ) (mirrorToOut : Bool) :
    AnchorPoint ℝ :=
  let sourceHandle := if mirrorToOut then anchorPoint.handleIn else anchorPoint.handleOut
  match sourceHandle with
  | none => anchorPoint
  | some sh =>
    if sh.visible then
      match anchorPoint.mirrorMode with
      | HandleMirrorMode.Mirrored =>
          let mirrored : Point ℝ := { x := -sh.position.x, y := -sh.position.y }
          if mirrorToOut then
            { anchorPoint with handleOut := some { position := mirrored, visible := true } }
          else
            { anchorPoint with handleIn := some { position := mirrored, visible := true } }
      | HandleMirrorMode.AngleLocked =>
          let targetHandle := if mirrorToOut then anchorPoint.handleOut else anchorPoint.handleIn
          match targetHandle with
          | none =>
              let mirrored : Point ℝ := { x := -sh.position.x, y := -sh.position.y }
              if mirrorToOut then
                { anchorPoint with handleOut := some { position := mirrored, visible := true } }
              else
                { anchorPoint with handleIn := some { position := mirrored, visible := true } }
          | some th =>
              if th.visible then
                let sourceLength := handleLen sh.position
                let targetLength := handleLen th.position
                if 0 < sourceLength then
                  let scale := targetLength / sourceLength
                  let newPos : Point ℝ :=
                    { x := -sh.position.x * scale, y := -sh.position.y * scale }
                  if mirrorToOut then
                    { anchorPoint with handleOut := some { position := newPos, visible := th.visible } }
                  else
                    { anchorPoint with handleIn := some { position := newPos, visible := th.visible } }
                else anchorPoint
              else
                let mirrored : Point ℝ := { x := -sh.position.x, y := -sh.position.y }
                if mirrorToOut then
                  { anchorPoint with handleOut := some { position := mirrored, visible := true } }
                else
                  { anchorPoint with handleIn := some { position := mirrored, visible := true } }
      | HandleMirrorMode.Independent => anchorPoint
    else anchorPoint

/-- HandleManager.updateHandle (handles.ts): stores the new relative
position on the chosen handle (creating it if absent, marking it
visible), then mirrors to the sibling handle. -/
noncomputable def updateHandle (anchorPoint : AnchorPoint ℝ) (isOutHandle : Bool)
    (newHandlePosition : Point ℝ) : AnchorPoint ℝ :=
  let relativePosition := PointUtils.subtract newHandlePosition anchorPoint.position
  if isOutHandle then
    mirrorHandle
      { anchorPoint with handleOut := some { position := relativePosition, visible := true } }
      false
  else
    mirrorHandle
      { anchorPoint with handleIn := some { position := relativePosition, visible := true } }
      true

end HandleManager

/-- The command-letter set of the tokenizing regex in
PathManager.parseSVGPath (path.ts), matched case-insensitively. -/
def isCommandChar (c : Char) : Bool :=
  c.toUpper == 'M' || c.toUpper == 'L' || c.toUpper == 'H' || c.toUpper == 'V' ||
  c.toUpper == 'C' || c.toUpper == 'S' || c.toUpper == 'Q' || c.toUpper == 'T' ||
  c.toUpper == 'A' || c.toUpper == 'Z'

/-- Scanner for the global regex of parseSVGPath: a command letter
followed by the run of non-command characters.  The accumulator holds
the command letter currently open together with its argument characters
collected so far (in reverse). -/
def splitCommandsAux : List Char → Option (Char × List Char) → List (Char × List Char)
  | [], none => []
  | [], some (c, args) => [(c, args.reverse)]
  | d :: rest, none =>
      if isCommandChar d then splitCommandsAux rest (some (d, []))
      else splitCommandsAux rest none
  | d :: rest, some (c, args) =>
      if isCommandChar d then (c, args.reverse) :: splitCommandsAux rest (some (d, []))
      else splitCommandsAux rest (some (c, d :: args))

/-- All (command letter, raw argument characters) pairs of a path string. -/
def splitCommands (s : String) : List (Char × List Char) :=
  splitCommandsAux s.toList none

/-- JavaScript String.prototype.trim on a character list. -/
def trimChars (l : List Char) : List Char :=
  ((l.dropWhile Char.isWhitespace).reverse.dropWhile Char.isWhitespace).reverse

/-- The character class of the numeric-token regex of parseSVGPath. -/
def isNumChar (c : Char) : Bool :=
  c.isDigit || c == '.'

/-- Scanner for the numeric-token regex (an optional minus sign followed
by one or more digits or dots): the accumulator holds the token under
construction in reverse.  A lone minus sign never becomes a token. -/
def scanNumbersAux : List Char → Option (List Char) → List (List Char)
  | [], none => []
  | [], some tok => if tok == ['-'] then [] else [tok.reverse]
  | c :: rest, none =>
      if isNumChar c then scanNumbersAux rest (some [c])
      else if c == '-' then scanNumbersAux rest (some ['-'])
      else scanNumbersAux rest none
  | c :: rest, some tok =>
      if isNumChar c then scanNumbersAux rest (some (c :: tok))
      else if tok == ['-'] then
        if c == '-' then scanNumbersAux rest (some ['-'])
        else scanNumbersAux rest none
      else
        tok.reverse ::
          (if c == '-' then scanNumbersAux rest (some ['-'])
           else scanNumbersAux rest none)

/-- All numeric tokens of an argument string. -/
def scanNumbers (l : List Char) : List (List Char) :=
  scanNumbersAux l none

/-- Decimal value of a digit run. -/
def digitsToNat (l : List Char) : Nat :=
  l.foldl (fun acc c => acc * 10 + (c.toNat - 48)) 0

/-- JavaScript parseFloat restricted to the token shapes produced by the
numeric-token regex (optional minus then digits/dots): parses a sign, an
integer digit run, and one optional fraction digit run, returning NaN
(none) when no digit was consumed. -/
def parseFloatTok (tok : List Char) : JNum :=
  let signed := match tok with
    | '-' :: r => (true, r)
    | r => (false, r)
  let rest := signed.2
  let intDigits := rest.takeWhile Char.isDigit
  let afterInt := rest.drop intDigits.length
  let fracDigits := match afterInt with
    | '.' :: r2 => r2.takeWhile Char.isDigit
    | _ => []
  if intDigits.isEmpty && fracDigits.isEmpty then none
  else
    let magnitude : ℚ :=
      (digitsToNat intDigits : ℚ) + (digitsToNat fracDigits : ℚ) / ((10 : ℚ) ^ fracDigits.length)
    some (if signed.1 then -magnitude else magnitude)

/-- One parsed command of parseSVGPath (path.ts): the command letter
plus the numeric fields read by the import loop.  Fields absent for a
command are none (JavaScript undefined). -/
structure SVGCommand where
  type : Char
  x : JNum := none
  y : JNum := none
  x1 : JNum := none
  y1 : JNum := none
  x2 : JNum := none
  y2 : JNum := none
  rx : JNum := none
  ry : JNum := none
  rotation : JNum := none
  largeArc : JNum := none
  sweep : JNum := none
deriving DecidableEq

/-- Argument pairs for M/L/T-style commands; a trailing unpaired value
gets an undefined (none) second coordinate, as in the source loop. -/
def chunk2 : List JNum → List (JNum × JNum)
  | [] => []
  | [a] => [(a, none)]
  | a :: b :: rest => (a, b) :: chunk2 rest

/-- Argument quadruples for S/Q commands. -/
def chunk4 : List JNum → List (JNum × JNum × JNum × JNum)
  | [] => []
  | [a] => [(a, none, none, none)]
  | [a, b] => [(a, b, none, none)]
  | [a, b, c] => [(a, b, c, none)]
  | a :: b :: c :: d :: rest => (a, b, c, d) :: chunk4 rest

/-- Argument sextuples for C commands. -/
def chunk6 : List JNum → List (JNum × JNum × JNum × JNum × JNum × JNum)
  | [] => []
  | [a] => [(a, none, none, none, none, none)]
  | [a, b] => [(a, b, none, none, none, none)]
  | [a, b, c] => [(a, b, c, none, none, none)]
  | [a, b, c, d] => [(a, b, c, d, none, none)]
  | [a, b, c, d, e] => [(a, b, c, d, e, none)]
  | a :: b :: c :: d :: e :: f :: rest => (a, b, c, d, e, f) :: chunk6 rest

/-- Argument septuples for A commands. -/
def chunk7 : List JNum → List (JNum × JNum × JNum × JNum × JNum × JNum × JNum)
  | [] => []
  | [a] => [(a, none, none, none, none, none, none)]
  | [a, b] => [(a, b, none, none, none, none, none)]
  | [a, b, c] => [(a, b, c, none, none, none, none)]
  | [a, b, c, d] => [(a, b, c, d, none, none, none)]
  | [a, b, c, d, e] => [(a, b, c, d, e, none, none)]
  | [a, b, c, d, e, f] => [(a, b, c, d, e, f, none)]
  | a :: b :: c :: d :: e :: f :: g :: rest => (a, b, c, d, e, f, g) :: chunk7 rest

/-- The M/L case of parseSVGPath: the first pair keeps the original
letter, and every later pair becomes an implicit line-to whose letter is
the absolute L exactly when the original letter was the absolute M. -/
def mlCommands (type : Char) (pairs : List (JNum × JNum)) : List SVGCommand :=
  match pairs with
  | [] => []
  | (a, b) :: rest =>
      { type := type, x := a, y := b } ::
        rest.map (fun p =>
          { type := if type == 'M' then 'L' else 'l', x := p.1, y := p.2 })

/-- The command records pushed for one (letter, argument string) match of
parseSVGPath (path.ts). -/
def commandsForMatch (type : Char) (rawArgs : List Char) : List SVGCommand :=
  let args := trimChars rawArgs
  if args.length == 0 && (type == 'Z' || type == 'z') then [{ type := type }]
  else
    let values := (scanNumbers args).map parseFloatTok
    match type.toUpper with
    | 'M' => mlCommands type (chunk2 values)
    | 'L' => mlCommands type (chunk2 values)
    | 'H' => values.map (fun v => { type := type, x := v })
    | 'V' => values.map (fun v => { type := type, y := v })
    | 'C' => (chunk6 values).map (fun v =>
        { type := type, x1 := v.1, y1 := v.2.1, x2 := v.2.2.1, y2 := v.2.2.2.1,
          x := v.2.2.2.2.1, y := v.2.2.2.2.2 })
    | 'S' => (chunk4 values).map (fun v =>
        { type := type, x2 := v.1, y2 := v.2.1, x := v.2.2.1, y := v.2.2.2 })
    | 'Q' => (chunk4 values).map (fun v =>
        { type := type, x1 := v.1, y1 := v.2.1, x := v.2.2.1, y := v.2.2.2 })
    | 'T' => (chunk2 values).map (fun v => { type := type, x := v.1, y := v.2 })
    | 'A' => (chunk7 values).map (fun v =>
        { type := type, rx := v.1, ry := v.2.1, rotation := v.2.2.1,
          largeArc := v.2.2.2.1, sweep := v.2.2.2.2.1, x := v.2.2.2.2.2.1,
          y := v.2.2.2.2.2.2 })
    | _ => []

/-- PathManager.parseSVGPath (path.ts). -/
def parseSVGPath (pathData : String) : List SVGCommand :=
  (splitCommands pathData).flatMap (fun m => commandsForMatch m.1 m.2)

/-- Styling options of PathManager.importFromSVG (path.ts). -/
structure ImportOptions where
  stroke : Option String := none
  strokeWidth : Option ℚ := none
  fill : Option String := none

/-- Loop state of the import interpreter in importFromSVG. -/
structure ImportState where
  path : VectorPath JNum
  currentPoint : Point JNum
  lastControlPoint : Option (Point JNum)
  counter : Nat

/-- Assignment to the last element of the anchor array, as done to
prevPoint / newPoint inside importFromSVG's C/c/S/s cases. -/
def updateLast (f : AnchorPoint α → AnchorPoint α) : List (AnchorPoint α) → List (AnchorPoint α)
  | [] => []
  | [p] => [f p]
  | p :: rest => p :: updateLast f rest

/-- Shared tail of the C/c/S/s cases of importFromSVG: set the previous
anchor's out-handle toward cp1 (when a previous anchor exists), append
the end anchor, give it an in-handle toward cp2, and remember cp2. -/
def applyCubic (s : ImportState) (cp1 cp2 endPoint : Point JNum) : ImportState :=
  let withPrev :=
    updateLast (fun prevPoint =>
      { prevPoint with handleOut := some (
          { position := { x := cp1.x - prevPoint.position.x, y := cp1.y - prevPoint.position.y }
            visible := true }) }) s.path.anchorPoints
  let path1 := { s.path with anchorPoints := withPrev }
  let added := PathManager.addAnchorPoint path1 s.counter endPoint none none
  let withNew :=
    updateLast (fun newPoint =>
      { newPoint with handleIn := some (
          { position := { x := cp2.x - endPoint.x, y := cp2.y - endPoint.y }
            visible := true }) }) added.1.anchorPoints
  let path2 := { added.1 with anchorPoints := withNew }
  { path := path2, currentPoint := endPoint, lastControlPoint := some cp2,
    counter := added.2.2 }

/-- The M/m case body of the import switch: move the pen, and append an
anchor only when the path still has zero anchor points. -/
def execMoveTo (s : ImportState) (currentPoint : Point JNum) : ImportState :=
  if s.path.anchorPoints.length == 0 then
    let added := PathManager.addAnchorPoint s.path s.counter currentPoint none none
    { s with path := added.1, currentPoint := currentPoint, counter := added.2.2 }
  else { s with currentPoint := currentPoint }

/-- The L/l/H/h/V/v case body of the import switch: append an anchor at
the new pen position and forget the last control point. -/
def execLineTo (s : ImportState) (currentPoint : Point JNum) : ImportState :=
  let added := PathManager.addAnchorPoint s.path s.counter currentPoint none none
  { path := added.1, currentPoint := currentPoint, lastControlPoint := none,
    counter := added.2.2 }

/-- The reflected first control point of the S/s case of the import
switch: reflect the previous curve's second control point through the
previous anchor, falling back to the current pen position. -/
def reflectedControl (s : ImportState) : Point JNum :=
  match s.lastControlPoint, s.path.anchorPoints.getLast? with
  | some lastControlPoint, some prevPoint =>
      { x := (2 : JNum) * prevPoint.position.x - lastControlPoint.x
        y := (2 : JNum) * prevPoint.position.y - lastControlPoint.y }
  | _, _ => s.currentPoint

/-- One iteration of the command loop of importFromSVG (path.ts); the
JavaScript switch on the command letter is an equality dispatch. -/
def execCommand (s : ImportState) (cmd : SVGCommand) : ImportState :=
  if cmd.type = 'M' then
    execMoveTo s { x := cmd.x, y := cmd.y }
  else if cmd.type = 'm' then
    execMoveTo s { x := s.currentPoint.x + cmd.x, y := s.currentPoint.y + cmd.y }
  else if cmd.type = 'L' then
    execLineTo s { x := cmd.x, y := cmd.y }
  else if cmd.type = 'l' then
    execLineTo s { x := s.currentPoint.x + cmd.x, y := s.currentPoint.y + cmd.y }
  else if cmd.type = 'H' then
    execLineTo s { x := cmd.x, y := s.currentPoint.y }
  else if cmd.type = 'h' then
    execLineTo s { x := s.currentPoint.x + cmd.x, y := s.currentPoint.y }
  else if cmd.type = 'V' then
    execLineTo s { x := s.currentPoint.x, y := cmd.y }
  else if cmd.type = 'v' then
    execLineTo s { x := s.currentPoint.x, y := s.currentPoint.y + cmd.y }
  else if cmd.type = 'C' then
    applyCubic s { x := cmd.x1, y := cmd.y1 } { x := cmd.x2, y := cmd.y2 }
      { x := cmd.x, y := cmd.y }
  else if cmd.type = 'c' then
    applyCubic s
      { x := s.currentPoint.x + cmd.x1, y := s.currentPoint.y + cmd.y1 }
      { x := s.currentPoint.x + cmd.x2, y := s.currentPoint.y + cmd.y2 }
      { x := s.currentPoint.x + cmd.x, y := s.currentPoint.y + cmd.y }
  else if cmd.type = 'S' then
    applyCubic s (reflectedControl s) { x := cmd.x2, y := cmd.y2 }
      { x := cmd.x, y := cmd.y }
  else if cmd.type = 's' then
    applyCubic s (reflectedControl s)
      { x := s.currentPoint.x + cmd.x2, y := s.currentPoint.y + cmd.y2 }
      { x := s.currentPoint.x + cmd.x, y := s.currentPoint.y + cmd.y }
  else if cmd.type = 'Z' then { s with path := PathManager.closePath s.path }
  else if cmd.type = 'z' then { s with path := PathManager.closePath s.path }
  else s

/-- PathManager.importFromSVG (path.ts).  The source wraps the body in
try/catch and returns null from the catch branch; no operation in the
body can throw (JavaScript number errors become NaN, modelled by JNum),
so the embedded import always returns some path.  Option applications
follow JavaScript truthiness (empty string / zero are falsy). -/
def importFromSVG (pathData : String) (options : ImportOptions) (counter : Nat) :
    Option (VectorPath JNum) × Nat :=
  let created := PathManager.createPath JNum counter
  let path0 := created.1
  let path0 := match options.stroke with
    | some sv => if sv == "" then path0 else { path0 with stroke := sv }
    | none => path0
  let path0 := match options.strokeWidth with
    | some w => if w == 0 then path0 else { path0 with strokeWidth := w }
    | none => path0
  let path0 := match options.fill with
    | some fv => if fv == "" then path0 else { path0 with fill := some fv }
    | none => path0
  let commands := parseSVGPath pathData
  let finalState := commands.foldl execCommand
    { path := path0, currentPoint := { x := some 0, y := some 0 },
      lastControlPoint := none, counter := created.2 }
  (some finalState.path, finalState.counter)

/-- Truthiness of an optional handle, as tested by `handle?.visible`
in getSegments: present and visible. -/
def hasVisibleHandle (h : Option (BezierHandle α)) : Bool :=
  match h with
  | some bh => bh.visible
  | none => false

/-- The segment the specification describes for index i: pair
points[i] with points[(i+1) % points.length]; the segment is cubic
exactly when the start's out-handle or the end's in-handle is visible,
each control point being that anchor's position plus its relative
handle offset, falling back to the anchor's own position on a side
with no visible handle; otherwise it is a straight line.  fb is a
fallback anchor for the (never taken) out-of-range indexing. -/
def specSegment [Add α] (path : VectorPath α) (fb : AnchorPoint α) (i : Nat) : PathSegment α :=
  let points := path.anchorPoints
  let startPoint := points.getD i fb
  let endPoint := points.getD ((i + 1) % points.length) fb
  if hasVisibleHandle startPoint.handleOut || hasVisibleHandle endPoint.handleIn then
    { type := SegmentType.CubicBezier
      startPoint := startPoint
      endPoint := endPoint
      controlPoint1 := some (if hasVisibleHandle startPoint.handleOut then
          PointUtils.add startPoint.position
            ((startPoint.handleOut.getD { position := startPoint.position, visible := false }).position)
        else startPoint.position)
      controlPoint2 := some (if hasVisibleHandle endPoint.handleIn then
          PointUtils.add endPoint.position
            ((endPoint.handleIn.getD { position := endPoint.position, visible := false }).position)
        else endPoint.position) }
  else
    { type := SegmentType.Line
      startPoint := startPoint
      endPoint := endPoint
      controlPoint1 := none
      controlPoint2 := none }

/-- Invariant carried by the scan of findClosestPointOnPath over the
anchors visited so far: the accumulator is none exactly when every
visited anchor lies strictly beyond the threshold, and otherwise holds
a within-threshold anchor of minimum distance, the first such one on
exact ties. -/
def ClosestInv (position : Point ℝ) (threshold : ℝ) (visited : List (AnchorPoint ℝ)) :
    Option (AnchorPoint ℝ × ℝ) → Prop
  | none => ∀ p ∈ visited, threshold < PointUtils.distance position p.position
  | some c =>
      c.2 = PointUtils.distance position c.1.position ∧
      c.2 ≤ threshold ∧
      (∀ p ∈ visited, PointUtils.distance position p.position ≤ threshold →
        c.2 ≤ PointUtils.distance position p.position) ∧
      ∃ pre post, visited = pre ++ c.1 :: post ∧
        ∀ p ∈ pre, PointUtils.distance position p.position ≤ threshold →
          c.2 < PointUtils.distance position p.position

/-- Two-anchor open path of the export scenario: anchors at (0,0) and
(100,0), no handles, built through the store operations. -/
def c8Path : VectorPath ℚ :=
  let created := PathManager.createPath ℚ 0
  let a1 := PathManager.addAnchorPoint created.1 created.2 { x := 0, y := 0 } none none
  let a2 := PathManager.addAnchorPoint a1.1 a1.2.2 { x := 100, y := 0 } none none
  a2.1

/-- One-anchor path used to exercise the referential-miss behaviour. -/
def c9Path : VectorPath ℚ :=
  let created := PathManager.createPath ℚ 0
  (PathManager.addAnchorPoint created.1 created.2 { x := 1, y := 2 } none none).1

/-- Two-anchor closed path (one visible out-handle) used to exercise the
segment derivation. -/
def c2Path : VectorPath ℚ :=
  let created := PathManager.createPath ℚ 0
  let a1 := PathManager.addAnchorPoint created.1 created.2 { x := 0, y := 0 } none
    (some { x := 10, y := 0 })
  let a2 := PathManager.addAnchorPoint a1.1 a1.2.2 { x := 100, y := 0 } none none
  PathManager.closePath a2.1

/-- Fallback anchor for exercising the segment derivation at ℚ. -/
def c2Fallback : AnchorPoint ℚ :=
  { id := "fallback"
    position := { x := 0, y := 0 }
    handleIn := none
    handleOut := none
    mirrorMode := HandleMirrorMode.Mirrored
    cornerRadius := 0
    selected := false }

/-- Anchor in angle-locked mode with no handles yet. -/
def c3Anchor : AnchorPoint ℝ :=
  { id := "c3"
    position := { x := 0, y := 0 }
    handleIn := none
    handleOut := none
    mirrorMode := HandleMirrorMode.AngleLocked
    cornerRadius := 0
    selected := false }

/-- Anchor in mirrored mode with no handles yet. -/
def c4Anchor : AnchorPoint ℝ :=
  { id := "c4"
    position := { x := 0, y := 0 }
    handleIn := none
    handleOut := none
    mirrorMode := HandleMirrorMode.Mirrored
    cornerRadius := 0
    selected := false }

/-- Import interpreter state holding a one-anchor path, used to exercise
the move-to behaviour mid-import. -/
def c10State : ImportState :=
  let created := PathManager.createPath JNum 0
  let a1 := PathManager.addAnchorPoint created.1 created.2 { x := some 1, y := some 1 } none none
  { path := a1.1
    currentPoint := { x := some 1, y := some 1 }
    lastControlPoint := none
    counter := a1.2.2 }

/-- A concrete absolute move-to command. -/
def c10Cmd : SVGCommand :=
  { type := 'M', x := some 3, y := some 4 }

/-- Control polygon of the concrete subdivision example. -/
def c5P0 : Point ℝ := { x := 0, y := 0 }

/-- Control polygon of the concrete subdivision example. -/
def c5P1 : Point ℝ := { x := 1, y := 0 }

/-- Control polygon of the concrete subdivision example. -/
def c5P2 : Point ℝ := { x := 1, y := 1 }

/-- Control polygon of the concrete subdivision example. -/
def c5P3 : Point ℝ := { x := 0, y := 1 }

/-- Import interpreter state holding an empty path. -/
def c10EmptyState : ImportState :=
  { path := (PathManager.createPath JNum 0).1
    currentPoint := { x := some 0, y := some 0 }
    lastControlPoint := none
    counter := 1 }

theorem getD_of_lt {β : Type} (l : List β) (i : Nat) (d : β) (h : i < l.length) :
    l.getD i d = l[i] := by
  simp [List.getD_eq_getElem?_getD, List.getElem?_eq_getElem h]

theorem findIndexAux_eq_none {α : Type} (f : AnchorPoint α → Bool)
    (l : List (AnchorPoint α)) (h : ∀ p ∈ l, f p = false) :
    ∀ i, PathManager.findIndexAux f l i = none := by
  induction l with
  | nil => intro i; rfl
  | cons p rest ih =>
      intro i
      rw [PathManager.findIndexAux, h p (List.mem_cons_self p rest), if_neg (by simp)]
      exact ih (fun q hq => h q (List.mem_cons_of_mem p hq)) (i + 1)

theorem anchors_any_eq_false {α : Type} (l : List (AnchorPoint α)) (pid : String)
    (h : ∀ p ∈ l, p.id ≠ pid) : l.any (fun p => p.id == pid) = false := by
  induction l with
  | nil => rfl
  | cons p rest ih =>
      rw [List.any_cons]
      have h1 : (p.id == pid) = false := by
        simpa using h p (List.mem_cons_self p rest)
      rw [h1, ih (fun q hq => h q (List.mem_cons_of_mem p hq))]
      rfl

/-- C1 (counterexample): importing the empty string parses to zero
usable anchor points, yet the import returns a path object with an
empty anchor list, not null. -/
theorem c1_empty_import_returns_empty_path :
    ((importFromSVG ("") {} 0).1.map (fun p => p.anchorPoints)) = some [] := by
  decide

/-- C1 (amended): importFromSVG never raises an exception and never
returns null: for every input string, options and counter it returns
some constructed path (possibly with zero anchor points). -/
theorem c1_import_always_returns_path (pathData : String) (options : ImportOptions)
    (counter : Nat) : (importFromSVG pathData options counter).1.isSome = true := by
  rfl

/-- C7: importing "M 0 0 C 10 0, 10 10, 0 10 Z" produces exactly two
anchor points, the first with a visible out-handle (and no in-handle),
the second with a visible in-handle (and no out-handle), and the
closed flag set. -/
theorem c7_import_scenario :
    ((importFromSVG ("M 0 0 C 10 0, 10 10, 0 10 Z") {} 0).1.map
      (fun p => (p.anchorPoints.length, p.closed,
        p.anchorPoints.map (fun a =>
          (hasVisibleHandle a.handleIn, hasVisibleHandle a.handleOut)))))
    = some (2, true, [(false, true), (true, false)]) := by
  decide

/-- C9: for every path and every point id not present among its anchor
points, removeAnchorPoint and moveAnchorPoint return false and leave
the path (its whole anchor sequence included) completely unchanged. -/
theorem c9_missing_id_is_noop {α : Type} (path : VectorPath α) (pointId : String)
    (newPosition : Point α) (h : ∀ p ∈ path.anchorPoints, p.id ≠ pointId) :
    PathManager.removeAnchorPoint path pointId = (path, false) ∧
    PathManager.moveAnchorPoint path pointId newPosition = (path, false) := by
  constructor
  · rw [PathManager.removeAnchorPoint,
      findIndexAux_eq_none (fun p => p.id == pointId) path.anchorPoints
        (by intro p hp; simpa using h p hp) 0]
  · rw [PathManager.moveAnchorPoint, if_neg]
    rw [anchors_any_eq_false path.anchorPoints pointId h]
    simp

/-- C9 witness: a concrete one-anchor path and a concrete missing id. -/
theorem c9_missing_id_is_noop_witness :
    (∀ p ∈ c9Path.anchorPoints, p.id ≠ "nope") ∧
    PathManager.removeAnchorPoint c9Path ("nope") = (c9Path, false) ∧
    PathManager.moveAnchorPoint c9Path ("nope") { x := 5, y := 5 } = (c9Path, false) := by
  have h : ∀ p ∈ c9Path.anchorPoints, p.id ≠ "nope" := by decide
  exact ⟨h, (c9_missing_id_is_noop c9Path ("nope") { x := 5, y := 5 } h).1,
    (c9_missing_id_is_noop c9Path ("nope") { x := 5, y := 5 } h).2⟩

/-- C10: a move-to command appends an anchor only when the path under
construction still has zero anchor points (then exactly one anchor, at
the new pen position, is appended); any later move-to leaves the path
untouched and only updates the pen position (absolute for M, relative
for m). -/
theorem c10_moveto_adds_anchor_only_when_empty (s : ImportState) (cmd : SVGCommand)
    (h : cmd.type = 'M' ∨ cmd.type = 'm') :
    (s.path.anchorPoints ≠ [] → (execCommand s cmd).path = s.path) ∧
    (s.path.anchorPoints = [] → ∃ a : AnchorPoint JNum,
      (execCommand s cmd).path.anchorPoints = [a] ∧
      a.position = (execCommand s cmd).currentPoint) ∧
    (execCommand s cmd).currentPoint =
      (if cmd.type = 'M' then ({ x := cmd.x, y := cmd.y } : Point JNum)
       else { x := s.currentPoint.x + cmd.x, y := s.currentPoint.y + cmd.y }) ∧
    (execCommand s cmd).lastControlPoint = s.lastControlPoint := by
  have hexec : execCommand s cmd =
      execMoveTo s (if cmd.type = 'M' then ({ x := cmd.x, y := cmd.y } : Point JNum)
        else { x := s.currentPoint.x + cmd.x, y := s.currentPoint.y + cmd.y }) := by
    rcases h with h | h <;> simp [execCommand, h]
  rw [hexec]
  cases hl : s.path.anchorPoints with
  | nil =>
      refine ⟨fun hc => absurd rfl hc, fun _ => ?_, ?_, ?_⟩
      · exact ⟨{ id := PathManager.generateId s.counter
                 position := (if cmd.type = 'M' then ({ x := cmd.x, y := cmd.y } : Point JNum)
                   else { x := s.currentPoint.x + cmd.x, y := s.currentPoint.y + cmd.y })
                 handleIn := none
                 handleOut := none
                 mirrorMode := HandleMirrorMode.Mirrored
                 cornerRadius := 0
                 selected := false },
          by simp [execMoveTo, hl, PathManager.addAnchorPoint],
          by simp [execMoveTo, hl]⟩
      · simp [execMoveTo, hl]
      · simp [execMoveTo, hl]
  | cons p rest =>
      refine ⟨fun _ => ?_, fun hc => ?_, ?_, ?_⟩
      · simp [execMoveTo, hl]
      · exact absurd hc (by simp)
      · simp [execMoveTo, hl]
      · simp [execMoveTo, hl]

/-- C10 witness: the same absolute move-to both on a one-anchor state
(no anchor added, pen moved) and on an empty state (anchor added). -/
theorem c10_moveto_adds_anchor_only_when_empty_witness :
    (c10Cmd.type = 'M' ∨ c10Cmd.type = 'm') ∧
    c10State.path.anchorPoints ≠ [] ∧
    (execCommand c10State c10Cmd).path = c10State.path ∧
    c10EmptyState.path.anchorPoints = [] ∧
    (∃ a : AnchorPoint JNum,
      (execCommand c10EmptyState c10Cmd).path.anchorPoints = [a] ∧
      a.position = (execCommand c10EmptyState c10Cmd).currentPoint) := by
  refine ⟨Or.inl rfl, by decide, ?_, by decide, ?_⟩
  · exact (c10_moveto_adds_anchor_only_when_empty c10State c10Cmd (Or.inl rfl)).1 (by decide)
  · exact (c10_moveto_adds_anchor_only_when_empty c10EmptyState c10Cmd (Or.inl rfl)).2.1 (by decide)

/-- C5: for every cubic Bezier and every subdivision parameter t in
(0,1), the first output curve evaluated at s in [0,1] equals the
original curve at t*s, and the second output curve at s equals the
original at t + (1-t)*s: the two halves together trace exactly the
original curve (here proved exactly, not merely within tolerance). -/
theorem c5_subdivision_preserves_curve (p0 cp1 cp2 p3 : Point ℝ) (t s : ℝ)
    (ht0 : 0 < t) (ht1 : t < 1) (hs0 : 0 ≤ s) (hs1 : s ≤ 1) :
    PathManager.cubicBezierPoint
        (PathManager.subdivideCubicBezier p0 cp1 cp2 p3 t).curve1.p0
        (PathManager.subdivideCubicBezier p0 cp1 cp2 p3 t).curve1.cp1
        (PathManager.subdivideCubicBezier p0 cp1 cp2 p3 t).curve1.cp2
        (PathManager.subdivideCubicBezier p0 cp1 cp2 p3 t).curve1.p3 s
      = PathManager.cubicBezierPoint p0 cp1 cp2 p3 (t * s) ∧
    PathManager.cubicBezierPoint
        (PathManager.subdivideCubicBezier p0 cp1 cp2 p3 t).curve2.p0
        (PathManager.subdivideCubicBezier p0 cp1 cp2 p3 t).curve2.cp1
        (PathManager.subdivideCubicBezier p0 cp1 cp2 p3 t).curve2.cp2
        (PathManager.subdivideCubicBezier p0 cp1 cp2 p3 t).curve2.p3 s
      = PathManager.cubicBezierPoint p0 cp1 cp2 p3 (t + (1 - t) * s) := by
  constructor <;>
    · ext <;>
        · simp only [PathManager.cubicBezierPoint, PathManager.subdivideCubicBezier,
            PathManager.lerp]
          ring

/-- C5 witness: a concrete curve subdivided at t = 1/2, evaluated at
s = 1/3. -/
theorem c5_subdivision_preserves_curve_witness :
    (0 : ℝ) < 1 / 2 ∧ (1 / 2 : ℝ) < 1 ∧ (0 : ℝ) ≤ 1 / 3 ∧ (1 / 3 : ℝ) ≤ 1 ∧
    (PathManager.cubicBezierPoint
        (PathManager.subdivideCubicBezier c5P0 c5P1 c5P2 c5P3 (1 / 2 : ℝ)).curve1.p0
        (PathManager.subdivideCubicBezier c5P0 c5P1 c5P2 c5P3 (1 / 2 : ℝ)).curve1.cp1
        (PathManager.subdivideCubicBezier c5P0 c5P1 c5P2 c5P3 (1 / 2 : ℝ)).curve1.cp2
        (PathManager.subdivideCubicBezier c5P0 c5P1 c5P2 c5P3 (1 / 2 : ℝ)).curve1.p3 (1 / 3)
      = PathManager.cubicBezierPoint c5P0 c5P1 c5P2 c5P3 ((1 / 2 : ℝ) * (1 / 3))) := by
  refine ⟨by norm_num, by norm_num, by norm_num, by norm_num, ?_⟩
  exact (c5_subdivision_preserves_curve c5P0 c5P1 c5P2 c5P3 (1 / 2) (1 / 3)
    (by norm_num) (by norm_num) (by norm_num) (by norm_num)).1

/-- C8: a path with fewer than two anchor points exports to the empty
string (for any coordinate type and number formatter), and the
two-anchor open path at (0,0), (100,0) with no handles exports to
"M 0 0 L 100 0" for any formatter printing 0 and 100 the JavaScript
way. -/
theorem c8_toSVGPath_scenarios :
    (∀ (α : Type) (_ : Add α) (f : α → String) (path : VectorPath α),
      path.anchorPoints.length < 2 → PathManager.toSVGPath f path = "") ∧
    (∀ f : ℚ → String, f 0 = "0" → f 100 = "100" →
      PathManager.toSVGPath f c8Path = "M 0 0 L 100 0") := by
  constructor
  · intro α inst f path hlen
    rw [PathManager.toSVGPath]
    have hseg : PathManager.getSegments path = [] := by
      rw [PathManager.getSegments]
      simp [hlen]
    rw [hseg]
  · intro f h0 h100
    have hseg : PathManager.getSegments c8Path =
        [{ type := SegmentType.Line
           startPoint := (c8Path.anchorPoints.getD 0 c2Fallback)
           endPoint := (c8Path.anchorPoints.getD 1 c2Fallback)
           controlPoint1 := none
           controlPoint2 := none }] := by
      decide
    rw [PathManager.toSVGPath, hseg]
    have he : (c8Path.anchorPoints.getD 1 c2Fallback).position = { x := 100, y := 0 } := by
      decide
    have hs : (c8Path.anchorPoints.getD 0 c2Fallback).position = { x := 0, y := 0 } := by
      decide
    simp only [List.filterMap, hs, he]
    have hclosed : c8Path.closed = false := by decide
    simp [hclosed, h0, h100, String.intercalate]
    rfl

/-- C2: a path with fewer than 2 anchor points has no segments; and for
a path with at least 2 anchors the derived segment list has exactly one
segment per index below lastSegmentIndex (anchor count for closed
paths, one less for open paths), each segment being the one the
specification describes for that index. -/
theorem c2_segment_derivation {α : Type} [Add α] (path : VectorPath α)
    (fb : AnchorPoint α) (fbSeg : PathSegment α) :
    (path.anchorPoints.length < 2 → PathManager.getSegments path = []) ∧
    (2 ≤ path.anchorPoints.length →
      (PathManager.getSegments path).length = PathManager.lastSegmentIndex path ∧
      ∀ i, i < PathManager.lastSegmentIndex path →
        (PathManager.getSegments path).getD i fbSeg = specSegment path fb i) := by
  constructor
  · intro h
    rw [PathManager.getSegments]
    simp [h]
  · intro h
    have hnl : ¬ path.anchorPoints.length < 2 := not_lt.2 h
    obtain ⟨p0, rest, hpts⟩ : ∃ p0 rest, path.anchorPoints = p0 :: rest := by
      cases hp : path.anchorPoints with
      | nil => rw [hp] at h; simp at h
      | cons a l => exact ⟨a, l, rfl⟩
    have hgs : PathManager.getSegments path =
        (List.range (PathManager.lastSegmentIndex path)).map (fun i =>
          let startPoint := path.anchorPoints.getD i p0
          let endPoint :=
            path.anchorPoints.getD ((i + 1) % path.anchorPoints.length) p0
          let hasOutHandle := match startPoint.handleOut with
            | some h => h.visible
            | none => false
          let hasInHandle := match endPoint.handleIn with
            | some h => h.visible
            | none => false
          if hasOutHandle || hasInHandle then
            let cp1 := match startPoint.handleOut with
              | some h => if h.visible then PointUtils.add startPoint.position h.position
                          else startPoint.position
              | none => startPoint.position
            let cp2 := match endPoint.handleIn with
              | some h => if h.visible then PointUtils.add endPoint.position h.position
                          else endPoint.position
              | none => endPoint.position
            { type := SegmentType.CubicBezier
              startPoint := startPoint
              endPoint := endPoint
              controlPoint1 := some cp1
              controlPoint2 := some cp2 }
          else
            { type := SegmentType.Line
              startPoint := startPoint
              endPoint := endPoint
              controlPoint1 := none
              controlPoint2 := none }) := by
      rw [PathManager.getSegments]
      rw [if_neg hnl]
      rw [hpts]
    have hlen0 : 0 < path.anchorPoints.length := by omega
    have hle : PathManager.lastSegmentIndex path ≤ path.anchorPoints.length := by
      rw [PathManager.lastSegmentIndex]
      split <;> omega
    constructor
    · rw [hgs]
      simp
    · intro i hi
      have h1 : i < path.anchorPoints.length := lt_of_lt_of_le hi hle
      have h2 : (i + 1) % path.anchorPoints.length < path.anchorPoints.length :=
        Nat.mod_lt _ hlen0
      have hmlen : i < ((List.range (PathManager.lastSegmentIndex path)).map (fun k =>
          specSegment path p0 k)).length := by
        simpa using hi
      rw [hgs]
      have hmap : ∀ k : Nat, k < path.anchorPoints.length →
          (k + 1) % path.anchorPoints.length < path.anchorPoints.length →
          (let startPoint := path.anchorPoints.getD k p0
           let endPoint :=
             path.anchorPoints.getD ((k + 1) % path.anchorPoints.length) p0
           let hasOutHandle := match startPoint.handleOut with
             | some h => h.visible
             | none => false
           let hasInHandle := match endPoint.handleIn with
             | some h => h.visible
             | none => false
           if hasOutHandle || hasInHandle then
             let cp1 := match startPoint.handleOut with
               | some h => if h.visible then PointUtils.add startPoint.position h.position
                           else startPoint.position
               | none => startPoint.position
             let cp2 := match endPoint.handleIn with
               | some h => if h.visible then PointUtils.add endPoint.position h.position
                           else endPoint.position
               | none => endPoint.position
             ({ type := SegmentType.CubicBezier
                startPoint := startPoint
                endPoint := endPoint
                controlPoint1 := some cp1
                controlPoint2 := some cp2 } : PathSegment α)
           else
             { type := SegmentType.Line
               startPoint := startPoint
               endPoint := endPoint
               controlPoint1 := none
               controlPoint2 := none }) = specSegment path fb k := by
        intro k hk1 hk2
        rw [specSegment]
        rw [getD_of_lt _ _ _ hk1, getD_of_lt _ _ _ hk2, getD_of_lt _ _ _ hk1,
          getD_of_lt _ _ _ hk2]
        rcases hso : (path.anchorPoints[k]).handleOut with _ | bh1 <;>
          rcases hsi : (path.anchorPoints[(k + 1) % path.anchorPoints.length]).handleIn
            with _ | bh2
        · simp [hasVisibleHandle, hso, hsi]
        · cases hv2 : bh2.visible <;> simp [hasVisibleHandle, hso, hsi, hv2]
        · cases hv1 : bh1.visible <;> simp [hasVisibleHandle, hso, hsi, hv1]
        · cases hv1 : bh1.visible <;> cases hv2 : bh2.visible <;>
            simp [hasVisibleHandle, hso, hsi, hv1, hv2]
      have : i < ((List.range (PathManager.lastSegmentIndex path)).map (fun k =>
          let startPoint := path.anchorPoints.getD k p0
          let endPoint :=
            path.anchorPoints.getD ((k + 1) % path.anchorPoints.length) p0
          let hasOutHandle := match startPoint.handleOut with
            | some h => h.visible
            | none => false
          let hasInHandle := match endPoint.handleIn with
            | some h => h.visible
            | none => false
          if hasOutHandle || hasInHandle then
            let cp1 := match startPoint.handleOut with
              | some h => if h.visible then PointUtils.add startPoint.position h.position
                          else startPoint.position
              | none => startPoint.position
            let cp2 := match endPoint.handleIn with
              | some h => if h.visible then PointUtils.add endPoint.position h.position
                          else endPoint.position
              | none => endPoint.position
            ({ type := SegmentType.CubicBezier
               startPoint := startPoint
               endPoint := endPoint
               controlPoint1 := some cp1
               controlPoint2 := some cp2 } : PathSegment α)
          else
            { type := SegmentType.Line
              startPoint := startPoint
              endPoint := endPoint
              controlPoint1 := none
              controlPoint2 := none })).length := by
        simpa using hi
      rw [getD_of_lt _ _ _ this, List.getElem_map, List.getElem_range]
      exact hmap i h1 h2

theorem handleLen_nonneg (p : Point ℝ) : 0 ≤ handleLen p :=
  Real.sqrt_nonneg _

theorem handleLen_eq_zero_iff (p : Point ℝ) :
    handleLen p = 0 ↔ p = { x := 0, y := 0 } := by
  rw [handleLen]
  constructor
  · intro h
    have hle : p.x ^ 2 + p.y ^ 2 ≤ 0 := Real.sqrt_eq_zero'.1 h
    have hx0 : p.x = 0 := by nlinarith [sq_nonneg p.x, sq_nonneg p.y]
    have hy0 : p.y = 0 := by nlinarith [sq_nonneg p.x, sq_nonneg p.y]
    ext <;> simp [hx0, hy0]
  · intro h
    rw [h]
    norm_num

theorem handleLen_pos_iff (p : Point ℝ) :
    0 < handleLen p ↔ p ≠ { x := 0, y := 0 } := by
  constructor
  · intro h heq
    rw [(handleLen_eq_zero_iff p).2 heq] at h
    exact lt_irrefl 0 h
  · intro h
    exact lt_of_le_of_ne (handleLen_nonneg p)
      (fun he => h ((handleLen_eq_zero_iff p).1 he.symm))

theorem handleLen_scale (p : Point ℝ) (c : ℝ) :
    handleLen { x := -p.x * c, y := -p.y * c } = |c| * handleLen p := by
  rw [handleLen, handleLen]
  rw [show (-p.x * c) ^ 2 + (-p.y * c) ^ 2 = c ^ 2 * (p.x ^ 2 + p.y ^ 2) by ring]
  rw [Real.sqrt_mul (sq_nonneg c), Real.sqrt_sq_eq_abs]

/-- C4: for every anchor point in mirrored mode, after updateHandle on
either handle both handles exist and are visible, the relative vectors
are exact negations of each other, and the updated handle carries the
new relative position. -/
theorem c4_mirrored_handles_are_negations (a : AnchorPoint ℝ) (isOutHandle : Bool)
    (newPos : Point ℝ) (hmode : a.mirrorMode = HandleMirrorMode.Mirrored) :
    ∃ hIn hOut : BezierHandle ℝ,
      (HandleManager.updateHandle a isOutHandle newPos).handleIn = some hIn ∧
      (HandleManager.updateHandle a isOutHandle newPos).handleOut = some hOut ∧
      hIn.visible = true ∧ hOut.visible = true ∧
      hIn.position.x = -hOut.position.x ∧ hIn.position.y = -hOut.position.y ∧
      (if isOutHandle then hOut.position else hIn.position)
        = PointUtils.subtract newPos a.position := by
  cases isOutHandle with
  | false =>
      refine ⟨⟨PointUtils.subtract newPos a.position, true⟩,
        ⟨{ x := -(PointUtils.subtract newPos a.position).x
           y := -(PointUtils.subtract newPos a.position).y }, true⟩, ?_, ?_, rfl, rfl, ?_, ?_, rfl⟩
      · simp [HandleManager.updateHandle, HandleManager.mirrorHandle, hmode]
      · simp [HandleManager.updateHandle, HandleManager.mirrorHandle, hmode]
      · simp
      · simp
  | true =>
      refine ⟨⟨{ x := -(PointUtils.subtract newPos a.position).x
                 y := -(PointUtils.subtract newPos a.position).y }, true⟩,
        ⟨PointUtils.subtract newPos a.position, true⟩, ?_, ?_, rfl, rfl, rfl, rfl, rfl⟩
      · simp [HandleManager.updateHandle, HandleManager.mirrorHandle, hmode]
      · simp [HandleManager.updateHandle, HandleManager.mirrorHandle, hmode]

/-- C4 witness: updating the out-handle of a concrete mirrored anchor
at the origin toward (1,2) yields handles (1,2) and (-1,-2). -/
theorem c4_mirrored_handles_are_negations_witness :
    c4Anchor.mirrorMode = HandleMirrorMode.Mirrored ∧
    ∃ hIn hOut : BezierHandle ℝ,
      (HandleManager.updateHandle c4Anchor true { x := 1, y := 2 }).handleIn = some hIn ∧
      (HandleManager.updateHandle c4Anchor true { x := 1, y := 2 }).handleOut = some hOut ∧
      hIn.visible = true ∧ hOut.visible = true ∧
      hIn.position.x = -hOut.position.x ∧ hIn.position.y = -hOut.position.y ∧
      (if (true : Bool) then hOut.position else hIn.position)
        = PointUtils.subtract ({ x := 1, y := 2 } : Point ℝ) c4Anchor.position :=
  ⟨rfl, c4_mirrored_handles_are_negations c4Anchor true { x := 1, y := 2 } rfl⟩

/-- C3: for an anchor in angle-locked mode, updating handle A (to a new
absolute position whose relative vector is nonzero) while the sibling
handle B exists and is visible rewrites B to -A scaled by len(B)/len(A):
its length is exactly preserved and, when B is not degenerate, its
direction is exactly opposite A's (a positive multiple of -A).  When
the just-set handle's relative vector is zero the sibling is left
entirely unchanged, and when the sibling is absent it is created as the
exact negation of A. -/
theorem c3_angle_locked_mirroring (a : AnchorPoint ℝ) (isOutHandle : Bool)
    (newPos : Point ℝ) (hmode : a.mirrorMode = HandleMirrorMode.AngleLocked) :
    (∀ t : BezierHandle ℝ,
      (if isOutHandle then a.handleIn else a.handleOut) = some t →
      t.visible = true →
      PointUtils.subtract newPos a.position ≠ { x := 0, y := 0 } →
      ∃ t' : BezierHandle ℝ,
        (if isOutHandle then (HandleManager.updateHandle a isOutHandle newPos).handleIn
         else (HandleManager.updateHandle a isOutHandle newPos).handleOut) = some t' ∧
        t'.visible = true ∧
        handleLen t'.position = handleLen t.position ∧
        t'.position.x = -(PointUtils.subtract newPos a.position).x *
          (handleLen t.position / handleLen (PointUtils.subtract newPos a.position)) ∧
        t'.position.y = -(PointUtils.subtract newPos a.position).y *
          (handleLen t.position / handleLen (PointUtils.subtract newPos a.position)) ∧
        (handleLen t.position ≠ 0 → ∃ c : ℝ, 0 < c ∧
          t'.position.x = c * (-(PointUtils.subtract newPos a.position).x) ∧
          t'.position.y = c * (-(PointUtils.subtract newPos a.position).y))) ∧
    (∀ t : BezierHandle ℝ,
      (if isOutHandle then a.handleIn else a.handleOut) = some t →
      t.visible = true →
      PointUtils.subtract newPos a.position = { x := 0, y := 0 } →
      (if isOutHandle then (HandleManager.updateHandle a isOutHandle newPos).handleIn
       else (HandleManager.updateHandle a isOutHandle newPos).handleOut) = some t) ∧
    ((if isOutHandle then a.handleIn else a.handleOut) = none →
      (if isOutHandle then (HandleManager.updateHandle a isOutHandle newPos).handleIn
       else (HandleManager.updateHandle a isOutHandle newPos).handleOut) = some
        { position := { x := -(PointUtils.subtract newPos a.position).x
                        y := -(PointUtils.subtract newPos a.position).y }
          visible := true }) := by
  cases isOutHandle with
  | true =>
      refine ⟨?_, ?_, ?_⟩
      · intro t ht hvis hne
        simp only [if_true, Bool.false_eq_true, if_false] at ht
        have hrelpos : 0 < handleLen (PointUtils.subtract newPos a.position) :=
          (handleLen_pos_iff _).2 hne
        have hres : (HandleManager.updateHandle a true newPos).handleIn =
            some ⟨{ x := -(PointUtils.subtract newPos a.position).x *
                      (handleLen t.position / handleLen (PointUtils.subtract newPos a.position))
                    y := -(PointUtils.subtract newPos a.position).y *
                      (handleLen t.position / handleLen (PointUtils.subtract newPos a.position)) },
                  t.visible⟩ := by
          simp only [HandleManager.updateHandle, HandleManager.mirrorHandle]
          simp [hmode, ht, hvis, hrelpos]
        refine ⟨_, hres, hvis, ?_, rfl, rfl, ?_⟩
        · rw [handleLen_scale]
          rw [abs_of_nonneg (div_nonneg (handleLen_nonneg _) (le_of_lt hrelpos))]
          exact div_mul_cancel₀ _ (ne_of_gt hrelpos)
        · intro htl
          exact ⟨handleLen t.position / handleLen (PointUtils.subtract newPos a.position),
            div_pos (lt_of_le_of_ne (handleLen_nonneg _) (Ne.symm htl)) hrelpos,
            by ring, by ring⟩
      · intro t ht hvis hzero
        simp only [if_true, Bool.false_eq_true, if_false] at ht
        have hlz : handleLen (PointUtils.subtract newPos a.position) = 0 :=
          (handleLen_eq_zero_iff _).2 hzero
        simp only [HandleManager.updateHandle, HandleManager.mirrorHandle]
        simp [hmode, ht, hvis, hlz]
      · intro hnone
        simp only [if_true, Bool.false_eq_true, if_false] at hnone
        simp only [HandleManager.updateHandle, HandleManager.mirrorHandle]
        simp [hmode, hnone]
  | false =>
      refine ⟨?_, ?_, ?_⟩
      · intro t ht hvis hne
        simp only [if_true, Bool.false_eq_true, if_false] at ht
        have hrelpos : 0 < handleLen (PointUtils.subtract newPos a.position) :=
          (handleLen_pos_iff _).2 hne
        have hres : (HandleManager.updateHandle a false newPos).handleOut =
            some ⟨{ x := -(PointUtils.subtract newPos a.position).x *
                      (handleLen t.position / handleLen (PointUtils.subtract newPos a.position))
                    y := -(PointUtils.subtract newPos a.position).y *
                      (handleLen t.position / handleLen (PointUtils.subtract newPos a.position)) },
                  t.visible⟩ := by
          simp only [HandleManager.updateHandle, HandleManager.mirrorHandle]
          simp [hmode, ht, hvis, hrelpos]
        refine ⟨_, hres, hvis, ?_, rfl, rfl, ?_⟩
        · rw [handleLen_scale]
          rw [abs_of_nonneg (div_nonneg (handleLen_nonneg _) (le_of_lt hrelpos))]
          exact div_mul_cancel₀ _ (ne_of_gt hrelpos)
        · intro htl
          exact ⟨handleLen t.position / handleLen (PointUtils.subtract newPos a.position),
            div_pos (lt_of_le_of_ne (handleLen_nonneg _) (Ne.symm htl)) hrelpos,
            by ring, by ring⟩
      · intro t ht hvis hzero
        simp only [if_true, Bool.false_eq_true, if_false] at ht
        have hlz : handleLen (PointUtils.subtract newPos a.position) = 0 :=
          (handleLen_eq_zero_iff _).2 hzero
        simp only [HandleManager.updateHandle, HandleManager.mirrorHandle]
        simp [hmode, ht, hvis, hlz]
      · intro hnone
        simp only [if_true, Bool.false_eq_true, if_false] at hnone
        simp only [HandleManager.updateHandle, HandleManager.mirrorHandle]
        simp [hmode, hnone]

/-- C3 witness: on a concrete angle-locked anchor with no sibling yet,
updating the out-handle toward (3,4) creates the in-handle as the exact
negation (-3,-4). -/
theorem c3_angle_locked_mirroring_witness :
    c3Anchor.mirrorMode = HandleMirrorMode.AngleLocked ∧
    c3Anchor.handleIn = none ∧
    (HandleManager.updateHandle c3Anchor true { x := 3, y := 4 }).handleIn = some
      { position := { x := -(PointUtils.subtract ({ x := 3, y := 4 } : Point ℝ)
                          c3Anchor.position).x
                      y := -(PointUtils.subtract ({ x := 3, y := 4 } : Point ℝ)
                          c3Anchor.position).y }
        visible := true } := by
  refine ⟨rfl, rfl, ?_⟩
  have h := (c3_angle_locked_mirroring c3Anchor true { x := 3, y := 4 } rfl).2.2
  simpa using h rfl

theorem findClosestLoop_inv (position : Point ℝ) (threshold : ℝ)
    (l : List (AnchorPoint ℝ)) :
    ∀ (visited : List (AnchorPoint ℝ)) (acc : Option (AnchorPoint ℝ × ℝ)),
      ClosestInv position threshold visited acc →
      ClosestInv position threshold (visited ++ l)
        (PathManager.findClosestLoop position threshold l acc) := by
  induction l with
  | nil =>
      intro visited acc h
      simpa [PathManager.findClosestLoop] using h
  | cons p rest ih =>
      intro visited acc h
      rw [show visited ++ p :: rest = (visited ++ [p]) ++ rest by simp]
      simp only [PathManager.findClosestLoop]
      apply ih
      by_cases hd : PointUtils.distance position p.position ≤ threshold
      · cases acc with
        | none =>
            simp only [hd, if_pos]
            refine ⟨rfl, hd, ?_, visited, [], by simp, ?_⟩
            · intro q hq hqth
              rcases List.mem_append.1 hq with hq | hq
              · exact absurd hqth (not_le.2 (h q hq))
              · rw [List.mem_singleton.1 hq]
            · intro q hq hqth
              exact absurd hqth (not_le.2 (h q hq))
        | some c =>
            obtain ⟨hc1, hc2, hmin, pre, post, hdecomp, hstrict⟩ := h
            by_cases hlt : PointUtils.distance position p.position < c.2
            · simp only [hd, if_pos, hlt]
              refine ⟨rfl, hd, ?_, visited, [], by simp, ?_⟩
              · intro q hq hqth
                rcases List.mem_append.1 hq with hq | hq
                · exact le_trans (le_of_lt hlt) (hmin q hq hqth)
                · rw [List.mem_singleton.1 hq]
              · intro q hq hqth
                exact lt_of_lt_of_le hlt (hmin q hq hqth)
            · simp only [hd, if_pos, hlt, if_neg, if_false]
              refine ⟨hc1, hc2, ?_, pre, post ++ [p], by rw [hdecomp]; simp, hstrict⟩
              intro q hq hqth
              rcases List.mem_append.1 hq with hq | hq
              · exact hmin q hq hqth
              · rw [List.mem_singleton.1 hq]
                exact not_lt.1 hlt
      · simp only [hd, if_neg, if_false]
        cases acc with
        | none =>
            intro q hq
            rcases List.mem_append.1 hq with hq | hq
            · exact h q hq
            · rw [List.mem_singleton.1 hq]
              exact not_le.1 hd
        | some c =>
            obtain ⟨hc1, hc2, hmin, pre, post, hdecomp, hstrict⟩ := h
            refine ⟨hc1, hc2, ?_, pre, post ++ [p], by rw [hdecomp]; simp, hstrict⟩
            intro q hq hqth
            rcases List.mem_append.1 hq with hq | hq
            · exact hmin q hq hqth
            · rw [List.mem_singleton.1 hq] at hqth
              exact absurd hqth hd

/-- C6: findClosestPointOnPath returns none exactly when no anchor lies
within the threshold; a returned anchor carries its true distance to
the query, lies within the threshold, belongs to the path, has minimum
distance among anchors within the threshold, and every earlier anchor
within the threshold is strictly farther (lowest index wins on exact
ties). -/
theorem c6_find_closest_characterization (path : VectorPath ℝ) (position : Point ℝ)
    (threshold : ℝ) :
    (PathManager.findClosestPointOnPath path position threshold = none →
      ∀ p ∈ path.anchorPoints,
        threshold < PointUtils.distance position p.position) ∧
    (∀ (a : AnchorPoint ℝ) (d : ℝ),
      PathManager.findClosestPointOnPath path position threshold = some (a, d) →
      d = PointUtils.distance position a.position ∧
      d ≤ threshold ∧
      a ∈ path.anchorPoints ∧
      (∀ p ∈ path.anchorPoints,
        PointUtils.distance position p.position ≤ threshold →
        d ≤ PointUtils.distance position p.position) ∧
      ∃ pre post, path.anchorPoints = pre ++ a :: post ∧
        ∀ p ∈ pre, PointUtils.distance position p.position ≤ threshold →
          d < PointUtils.distance position p.position) ∧
    ((∃ p ∈ path.anchorPoints,
        PointUtils.distance position p.position ≤ threshold) →
      PathManager.findClosestPointOnPath path position threshold ≠ none) := by
  have hinv := findClosestLoop_inv position threshold path.anchorPoints [] none
    (by intro q hq; exact absurd hq (List.not_mem_nil q))
  rw [List.nil_append] at hinv
  refine ⟨?_, ?_, ?_⟩
  · intro hnone
    rw [PathManager.findClosestPointOnPath] at hnone
    rw [hnone] at hinv
    exact hinv
  · intro a d hsome
    rw [PathManager.findClosestPointOnPath] at hsome
    rw [hsome] at hinv
    obtain ⟨hc1, hc2, hmin, pre, post, hdecomp, hstrict⟩ := hinv
    exact ⟨hc1, hc2, by rw [hdecomp]; exact List.mem_append_right _ (List.mem_cons_self a post),
      hmin, pre, post, hdecomp, hstrict⟩
  · rintro ⟨p, hp, hpth⟩ hnone
    rw [PathManager.findClosestPointOnPath] at hnone
    rw [hnone] at hinv
    exact absurd hpth (not_le.2 (hinv p hp))

end PenToolSpec
